import Mathlib

/-!
Verification of the `dnd-kit-plus` drag-and-drop state machine and event
orchestration layer.

The development shallowly embeds the TypeScript sources:
* `dnd-state` — the `Entity`, `DragState`, `GlobalDndState` data model and the
  `dndStateReducer` transition function;
* `DndProvider` — the orchestrator's `onDragOver` / `onDragEnd` handlers,
  modelled as the sequence of actions they dispatch;
* `DndNode` — the callback registration each mounted node stores;
* `DndOverlay` — the overlay's render contract.

JavaScript semantics is embedded explicitly where it matters:
* a JS `Map` is an insertion-ordered association list whose keys may be
  `undefined` (modelled as `Option String`, `none` = `undefined`);
* `null` written into the `over` field is modelled by `Option`, `none` = `null`;
* property access on `null`/`undefined` and other runtime `TypeError`s are
  modelled with `Except String`;
* in-place mutation of the input state's `over` map (`state.over.set` /
  `state.over.delete` mutate before `new Map` copies) is modelled by returning,
  next to the reducer's result, the input state as it looks after the call.
-/

namespace DndKitPlus

/-- TS `Entity<T>`: `{ id: string; namespace: string; state: T }`.
`nspace` stands for the `namespace` field (a reserved word in Lean). -/
structure Entity (T : Type) where
  id : String
  nspace : String
  state : T
  deriving Repr, DecidableEq

/-- A JS `Map` with string-or-`undefined` keys, as an insertion-ordered
association list. `none` is the `undefined` key (JS `Map` accepts it). -/
abbrev JsMap (α : Type) : Type := List (Option String × α)

/-- JS `Map.prototype.get`: the binding of `k`, if present. -/
def JsMap.get (m : JsMap α) (k : Option String) : Option α :=
  match m with
  | [] => none
  | (k', v) :: rest => if k' = k then some v else JsMap.get rest k

/-- JS `Map.prototype.set`: updates the value of an existing key in place
(keeping its position) or appends a new binding. -/
def JsMap.set (m : JsMap α) (k : Option String) (v : α) : JsMap α :=
  match m with
  | [] => [(k, v)]
  | (k', v') :: rest =>
    if k' = k then (k, v) :: rest else (k', v') :: JsMap.set rest k v

/-- JS `Map.prototype.delete`: removes the binding of `k`; the boolean that JS
returns (whether the key was present) is tracked separately by `JsMap.hasKey`. -/
def JsMap.del (m : JsMap α) (k : Option String) : JsMap α :=
  match m with
  | [] => []
  | (k', v') :: rest =>
    if k' = k then rest else (k', v') :: JsMap.del rest k

/-- JS `Map.prototype.has`, and the boolean returned by `Map.prototype.delete`. -/
def JsMap.hasKey (m : JsMap α) (k : Option String) : Bool :=
  match m with
  | [] => false
  | (k', _) :: rest => if k' = k then true else JsMap.hasKey rest k

/-- The objects the reducer stores as values of `state.over`:
`drag-over` stores `{status: "over", entity: payload}` and `drag-leave`
stores `{...current, status: "leave"}`, which keeps the `entity` property
when `current` has one and omits it when `current` is `undefined`. -/
structure OverEntry (T : Type) where
  status : String
  entity : Option (Entity T)
  deriving Repr, DecidableEq

/-- TS `DragState<T>`: `{ dragging: Array<Entity<T>>; over: Map<string, ...> }`.
`over` is `Option`-valued because `drop-pending` writes `null` into it. -/
structure DragState (T : Type) where
  dragging : List (Entity T)
  over : Option (JsMap (OverEntry T))
  deriving Repr, DecidableEq

/-- TS `GlobalDndState<T> = DragState<T> & { dropping: Array<DragState<T>> }`. -/
structure GlobalDndState (T : Type) where
  dragging : List (Entity T)
  over : Option (JsMap (OverEntry T))
  dropping : List (DragState T)
  deriving Repr, DecidableEq

/-- The constant `initialGlobalDndState = { dragging: [], over: new Map(), dropping: [] }`. -/
def initialGlobalDndState (T : Type) : GlobalDndState T :=
  { dragging := [], over := some [], dropping := [] }

/-- The payload the orchestrator attaches to a `drag-leave` dispatch when it
attaches one at all: `{ immediate: true }`. The reducer reads `payload.id`,
so both properties are modelled as optional. -/
structure LeavePayload where
  immediate : Option Bool
  id : Option String
  deriving Repr, DecidableEq

/-- TS `GlobalDndAction<T>`. The `drag-leave` member of the TS union declares no
payload, but the reducer reads `action.payload.id` and the orchestrator
sometimes dispatches `{ immediate: true }`; the model therefore carries an
optional `LeavePayload`. `drag-leave-resolved`, `drop-resolved` and
`drop-canceled` are always dispatched with `payload: { id: String(id) }`. -/
inductive GlobalDndAction (T : Type) where
  | dragStart (payload : List (Entity T))
  | dragOver (payload : Entity T)
  | dragLeave (payload : Option LeavePayload)
  | dragLeaveResolved (id : String)
  | dragCanceled
  | dropPending
  | dropResolved (id : String)
  | dropCanceled (id : String)
  deriving Repr, DecidableEq

/-- The filter `state.dropping.filter((drop) => drop.over.id !== action.payload.id)`.
Reading `.id` on a snapshot whose `over` is a `Map` yields `undefined`
(a `Map` instance has no `id` property); on `null` it throws a `TypeError`.
`action.payload.id` is always a string, so the strict inequality compares
`undefined` with a string. -/
def filterDropping (drops : List (DragState T)) (id : String) :
    Except String (List (DragState T)) :=
  match drops with
  | [] => .ok []
  | d :: rest =>
    match d.over with
    | none => .error "TypeError: Cannot read properties of null (reading id)"
    | some _ =>
      let dropOverId : Option String := none
      if dropOverId ≠ some id then
        (filterDropping rest id).map (d :: ·)
      else
        filterDropping rest id

/-- The `drop-resolved` / `drop-canceled` case body, shared verbatim by the
two action types (`case "drop-resolved": case "drop-canceled":`). -/
def dropSettleResult (state : GlobalDndState T) (id : String) :
    Except String (GlobalDndState T) :=
  match filterDropping state.dropping id with
  | .ok ds => .ok { state with dropping := ds }
  | .error e => .error e

/-- One JS call `dndStateReducer(state, action)`. The first component is what
the call returns (or the `TypeError` it throws); the second component is the
caller's `state` object after the call — `state.over.set(...)` and
`state.over.delete(...)` mutate that map in place before `new Map` copies it,
so the input is not always left intact. -/
def dndStateReducerRun (state : GlobalDndState T) (action : GlobalDndAction T) :
    Except String (GlobalDndState T) × GlobalDndState T :=
  match action with
  | .dragStart payload =>
    (.ok { state with dragging := payload }, state)
  | .dragCanceled =>
    (.ok { state with dragging := [] }, state)
  | .dragOver payload =>
    match state.over with
    | none =>
      (.error "TypeError: Cannot read properties of null (reading set)", state)
    | some m =>
      let m' := JsMap.set m (some payload.id) { status := "over", entity := some payload }
      (.ok { state with over := some m' }, { state with over := some m' })
  | .dragLeave payload =>
    match payload with
    | none =>
      (.error "TypeError: Cannot read properties of undefined (reading id)", state)
    | some p =>
      match state.over with
      | none =>
        (.error "TypeError: Cannot read properties of null (reading get)", state)
      | some m =>
        let current := JsMap.get m p.id
        let m' := JsMap.set m p.id { status := "leave", entity := current.bind OverEntry.entity }
        (.ok { state with over := some m' }, { state with over := some m' })
  | .dragLeaveResolved id =>
    match state.over with
    | none =>
      (.error "TypeError: Cannot read properties of null (reading delete)", state)
    | some m =>
      let m' := JsMap.del m (some id)
      -- `state.over.delete(id)` returns a boolean, and `new Map(boolean)`
      -- throws: booleans are not iterable. The in-place deletion has
      -- already happened when the constructor throws.
      (.error "TypeError: boolean false is not iterable", { state with over := some m' })
  | .dropPending =>
    (.ok { dragging := [], over := none,
           dropping := state.dropping ++ [{ dragging := state.dragging, over := state.over }] },
     state)
  | .dropResolved id =>
    (dropSettleResult state id, state)
  | .dropCanceled id =>
    (dropSettleResult state id, state)

/-- The value `dndStateReducer(state, action)` returns (or the error thrown). -/
def dndStateReducer (state : GlobalDndState T) (action : GlobalDndAction T) :
    Except String (GlobalDndState T) :=
  (dndStateReducerRun state action).1

/-- The caller's `state` object after `dndStateReducer(state, action)` ran. -/
def dndStateReducerInputAfter (state : GlobalDndState T) (action : GlobalDndAction T) :
    GlobalDndState T :=
  (dndStateReducerRun state action).2

/-- Dispatching a list of actions in order through the reducer, stopping at a
thrown error. -/
def applyActions (state : GlobalDndState T) :
    List (GlobalDndAction T) → Except String (GlobalDndState T)
  | [] => .ok state
  | a :: rest =>
    match dndStateReducer state a with
    | .ok s' => applyActions s' rest
    | .error e => .error e

/-! Section: the callback registry and the `DndNode` registration (`DndNode.tsx`). -/

/-- A presence-level model of the function-valued registration a node stores
in `DragEventCallbacksContext`: each field records whether the corresponding
property of the registered object is defined (truthy when looked up as
`fns?.onDrop` etc.). -/
structure Registration where
  enableDrop : Bool
  onLeave : Bool
  onDrop : Bool
  onDragStart : Bool
  deriving Repr, DecidableEq

/-- The registration `DndNode` stores on mount:
`callbacks.set(id, { enableDrop, onLeave: onLeavePromise.current ? onLeavePromise.current() : undefined, onDrop: handleDrop, onDragStart: handleDragState })`.
`handleDrop` and `handleDragState` are local functions defined
unconditionally, so `onDrop` and `onDragStart` are always present, whatever
props the node received; `enableDrop` is the prop itself and `onLeave` is
present exactly when a leave promise was registered below this node. -/
def dndNodeRegistration (hasEnableDropProp hasOnLeavePromise : Bool) : Registration :=
  { enableDrop := hasEnableDropProp
    onLeave := hasOnLeavePromise
    onDrop := true
    onDragStart := true }

/-- The registry `dragEventCallbacks`: a JS `Map` from node id to
registration. `DndNode` only ever registers under the string key
`` `${namespace}-${idProp}` ``. -/
abbrev Callbacks : Type := JsMap Registration

/-- Truthiness of `fns?.onDrop` for `fns = dragEventCallbacks.get(k)`. -/
def hasDropCallback (callbacks : Callbacks) (k : Option String) : Bool :=
  ((JsMap.get callbacks k).map Registration.onDrop).getD false

/-- Truthiness of `fns?.onLeave` for `fns = dragEventCallbacks.get(k)`. -/
def hasLeaveCallback (callbacks : Callbacks) (k : Option String) : Bool :=
  ((JsMap.get callbacks k).map Registration.onLeave).getD false

/-! Section: the orchestrator's dispatch behaviour (`DndProvider.tsx`).

The `onDragOver` / `onDragEnd` handlers are modelled as the sequence of
actions they dispatch. The asynchronous outcome of an awaited handler
(`onLeave` / `onDrop` fulfilled vs rejected) is an explicit boolean input;
on the rejection branch the handler logs with `console.error` and continues,
which the action sequence does not record. -/

/-- Actions dispatched by one `onDragOver(dragEvent)` invocation.
`eventOver` models `dragEvent.over` together with
`dragEvent.over.data.current.entities[0]` (`none` = the pointer is over no
droppable, so `dragEvent.over?.id` is `undefined`); `leaveOutcome` is whether
`await fns.onLeave()` would fulfill, and `enableDropResult` is what
`fns.enableDrop(state)` would return. -/
def onDragOverActions (callbacks : Callbacks) (state : GlobalDndState T)
    (eventOver : Option (Entity T)) (leaveOutcome enableDropResult : Bool) :
    List (GlobalDndAction T) :=
  match eventOver with
  | none =>
    -- `const fns = dragEventCallbacks.get(id)` with `id = dragEvent.over?.id`,
    -- i.e. a lookup under the `undefined` key inside the `if (!id)` branch.
    if !hasLeaveCallback callbacks none then
      [.dragLeave (some { immediate := some true, id := none })]
    else
      -- `String(id)` with `id = undefined` is the string "undefined";
      -- the `try` and `catch` branches dispatch the same resolved action.
      if leaveOutcome then
        [.dragLeave none, .dragLeaveResolved "undefined"]
      else
        [.dragLeave none, .dragLeaveResolved "undefined"]
  | some ent =>
    -- prevent draggable entities from becoming droppable
    if state.dragging.any (fun e => e.id = ent.id) then
      []
    else
      let fns := JsMap.get callbacks (some ent.id)
      let enabled :=
        if (fns.map Registration.enableDrop).getD false then enableDropResult else true
      if enabled then
        [.dragOver ent]
      else
        [.dragLeave none]

/-- Actions dispatched by one `onDragEnd(dragEvent)` invocation.
`eventOverId` is `dragEvent.over?.id` and `dropOutcome` is whether
`await fns.onDrop(state)` fulfills (`true`) or rejects (`false`; the handler
then logs the error and dispatches `drop-canceled`). -/
def onDragEndActions (T : Type) (callbacks : Callbacks)
    (eventOverId : Option String) (dropOutcome : Bool) :
    List (GlobalDndAction T) :=
  match eventOverId with
  | none => [.dragCanceled]
  | some id =>
    if !hasDropCallback callbacks (some id) then
      [.dropResolved id]
    else
      if dropOutcome then
        [.dropPending, .dropResolved id]
      else
        [.dropPending, .dropCanceled id]

/-! Section: the overlay render contract (`DndOverlay.tsx`). -/

/-- What `DndOverlayContent` renders: the entities shown (in order) and the
count badge (`<div data-dndoverlay-badge>{totalEntityLength}</div>`), which is
emitted on the element at index 0 of the rendered list. -/
structure OverlayRender (T : Type) where
  rendered : List (Entity T)
  badge : Bool
  badgeCount : Nat
  deriving Repr, DecidableEq

/-- The component `DndOverlayContent({ maxEntityCount = 5, entities, renderEntity })`:
before any mouse position is observed (`!hasValue`) it returns `null`;
otherwise it renders `entities.slice(0, maxEntityCount)` in order, and the
badge is attached to the item at `i === 0` when `totalEntityLength > 1`. -/
def dndOverlayContent (hasValue : Bool) (entities : List (Entity T))
    (maxEntityCount : Nat) : OverlayRender T :=
  if !hasValue then
    { rendered := [], badge := false, badgeCount := 0 }
  else
    let totalEntityLength := entities.length
    let entitiesToRender := entities.take maxEntityCount
    { rendered := entitiesToRender
      badge := !entitiesToRender.isEmpty && decide (totalEntityLength > 1)
      badgeCount := totalEntityLength }

/-! Section: concrete fixtures used by the closed theorems and witnesses. -/

/-- A concrete entity, id `ns-A`, for closed statements (payload type `Nat`). -/
def entA : Entity Nat := { id := "ns-A", nspace := "ns", state := 1 }

/-- A concrete entity, id `ns-B`. -/
def entB : Entity Nat := { id := "ns-B", nspace := "ns", state := 2 }

/-- A concrete entity, id `ns-C`. -/
def entC : Entity Nat := { id := "ns-C", nspace := "ns", state := 3 }

/-! Section: helper lemmas about the `JsMap` operations. -/

/-- Setting a key then reading it back gives the written value. -/
theorem JsMap.get_set_self (m : JsMap α) (k : Option String) (v : α) :
    JsMap.get (JsMap.set m k v) k = some v := by
  induction m with
  | nil => simp [JsMap.set, JsMap.get]
  | cons p rest ih =>
    obtain ⟨k', v'⟩ := p
    by_cases h : k' = k
    · simp [JsMap.set, JsMap.get, h]
    · simp [JsMap.set, JsMap.get, h, ih]

/-- A successful lookup is a membership in the association list. -/
theorem JsMap.get_mem {m : JsMap α} {k : Option String} {v : α}
    (h : JsMap.get m k = some v) : (k, v) ∈ m := by
  induction m with
  | nil => simp [JsMap.get] at h
  | cons p rest ih =>
    obtain ⟨k', v'⟩ := p
    by_cases hk : k' = k
    · simp [JsMap.get, hk] at h
      simp [hk, h]
    · simp [JsMap.get, hk] at h
      exact List.mem_cons_of_mem _ (ih h)

/-- The key set after a `set`: the written key is added, nothing is removed. -/
theorem JsMap.mem_keys_set (m : JsMap α) (k₀ k : Option String) (v : α) :
    k ∈ (JsMap.set m k₀ v).map Prod.fst ↔ k ∈ m.map Prod.fst ∨ k = k₀ := by
  induction m with
  | nil => simp [JsMap.set]
  | cons p rest ih =>
    obtain ⟨k', v'⟩ := p
    by_cases h : k' = k₀
    · subst h
      simp [JsMap.set]
      tauto
    · simp [JsMap.set, h, ih]
      tauto

/-- A `set` preserves the no-duplicate-keys invariant of a JS `Map`. -/
theorem JsMap.nodup_keys_set (m : JsMap α) (k₀ : Option String) (v : α)
    (h : (m.map Prod.fst).Nodup) : ((JsMap.set m k₀ v).map Prod.fst).Nodup := by
  induction m with
  | nil => simp [JsMap.set]
  | cons p rest ih =>
    obtain ⟨k', v'⟩ := p
    simp only [List.map_cons, List.nodup_cons] at h
    by_cases hk : k' = k₀
    · subst hk
      simpa [JsMap.set] using h
    · have hrest := ih h.2
      have hmem : k' ∉ (JsMap.set rest k₀ v).map Prod.fst := by
        rw [JsMap.mem_keys_set]
        rintro (hm | rfl)
        · exact h.1 hm
        · exact hk rfl
      simp [JsMap.set, hk, List.nodup_cons, hmem, hrest]

/-! Section: the effect of a sequence of `drag-over` dispatches. -/

/-- The over map produced by folding the reducer's `drag-over` update
(`over.set(payload.id, {status: "over", entity: payload})`) over a list of
payload entities, starting from the map `m`. -/
def overAfterDragOvers (m : JsMap (OverEntry T)) (es : List (Entity T)) :
    JsMap (OverEntry T) :=
  es.foldl (fun m' e => JsMap.set m' (some e.id) { status := "over", entity := some e }) m

/-- Dispatching a list of `drag-over` actions from a state whose `over` map is
`m` succeeds and only folds the `set` update over `m`. -/
theorem applyActions_dragOvers (es : List (Entity T)) (d : List (Entity T))
    (m : JsMap (OverEntry T)) (dr : List (DragState T)) :
    applyActions ⟨d, some m, dr⟩ (es.map .dragOver) =
      .ok ⟨d, some (overAfterDragOvers m es), dr⟩ := by
  induction es generalizing m with
  | nil => rfl
  | cons e es ih =>
    exact ih (JsMap.set m (some e.id) { status := "over", entity := some e })

/-- The entry of the most recently hovered target: after the fold, the key of
the last payload maps to `{status: "over", entity: that payload}`. -/
theorem get_overAfterDragOvers_getLast (es : List (Entity T)) (lastE : Entity T)
    (hlast : es.getLast? = some lastE) (m : JsMap (OverEntry T)) :
    JsMap.get (overAfterDragOvers m es) (some lastE.id) =
      some { status := "over", entity := some lastE } := by
  induction es using List.reverseRecOn generalizing m with
  | nil => simp at hlast
  | append_singleton l e _ =>
    rw [List.getLast?_concat] at hlast
    obtain rfl : e = lastE := by simpa using hlast
    unfold overAfterDragOvers
    rw [List.foldl_append]
    exact JsMap.get_set_self _ _ _

/-- The keys after the fold: one per distinct hovered id, plus the keys the
starting map already had; nothing is ever removed. -/
theorem mem_keys_overAfterDragOvers (es : List (Entity T)) (m : JsMap (OverEntry T))
    (k : Option String) :
    k ∈ (overAfterDragOvers m es).map Prod.fst ↔
      k ∈ m.map Prod.fst ∨ ∃ e ∈ es, k = some e.id := by
  induction es generalizing m with
  | nil => simp [overAfterDragOvers]
  | cons e es ih =>
    unfold overAfterDragOvers
    rw [List.foldl_cons]
    have := ih (JsMap.set m (some e.id) { status := "over", entity := some e })
    unfold overAfterDragOvers at this
    rw [this, JsMap.mem_keys_set,
        List.exists_mem_cons_iff (fun x => k = some x.id) e es]
    tauto

/-- The fold preserves the no-duplicate-keys invariant. -/
theorem nodup_keys_overAfterDragOvers (es : List (Entity T)) (m : JsMap (OverEntry T))
    (h : (m.map Prod.fst).Nodup) :
    ((overAfterDragOvers m es).map Prod.fst).Nodup := by
  induction es generalizing m with
  | nil => exact h
  | cons e es ih =>
    exact ih _ (JsMap.nodup_keys_set m (some e.id) _ h)

/-! Section: the claims. -/

/-- C1 (counterexample): the claim says `drop-pending` yields a state whose
`over` is empty. At the concrete state `{dragging: [entA], over: new Map(),
dropping: []}` the reducer instead writes `null` (`none`) into `over`, and the
produced state differs from the claimed one (`over` an empty map) exactly
there. -/
theorem dropPending_over_not_empty_cex :
    dndStateReducer (⟨[entA], some [], []⟩ : GlobalDndState Nat) .dropPending =
      .ok ⟨[], none, [⟨[entA], some []⟩]⟩ ∧
    (⟨[], none, [⟨[entA], some []⟩]⟩ : GlobalDndState Nat) ≠
      ⟨[], some [], [⟨[entA], some []⟩]⟩ :=
  ⟨rfl, by decide⟩

/-- C1 (amended): for every state, `drop-pending` yields a state whose
`dragging` is empty, whose `over` is `null` (not an empty map), and whose
`dropping` is the old `dropping` with exactly one new snapshot
`{dragging: old dragging, over: old over}` appended at the end. -/
theorem dropPending_clears_and_appends (s : GlobalDndState T) :
    dndStateReducer s .dropPending =
      .ok { dragging := [], over := none,
            dropping := s.dropping ++ [{ dragging := s.dragging, over := s.over }] } :=
  rfl

/-- C2: at a state holding one snapshot captured while hovering target `ns-C`,
`drop-resolved("ns-C")` and `drop-canceled("ns-C")` remove nothing — the
filter compares `drop.over.id` (which is `undefined`, a `Map` has no `id`
property) against the string id, so every snapshot is kept and `dropping`
keeps length 1 instead of decreasing to 0. -/
theorem dropSettle_removes_nothing :
    dndStateReducer
        (⟨[], some [], [⟨[entA], some [(some "ns-C", ⟨"over", some entA⟩)]⟩]⟩ :
          GlobalDndState Nat)
        (.dropResolved "ns-C") =
      .ok ⟨[], some [], [⟨[entA], some [(some "ns-C", ⟨"over", some entA⟩)]⟩]⟩ ∧
    dndStateReducer
        (⟨[], some [], [⟨[entA], some [(some "ns-C", ⟨"over", some entA⟩)]⟩]⟩ :
          GlobalDndState Nat)
        (.dropCanceled "ns-C") =
      .ok ⟨[], some [], [⟨[entA], some [(some "ns-C", ⟨"over", some entA⟩)]⟩]⟩ ∧
    ([⟨[entA], some [(some "ns-C", ⟨"over", some entA⟩)]⟩] :
        List (DragState Nat)).length = 1 :=
  ⟨rfl, rfl, rfl⟩

/-- C3: with the previous target `ns-A` registered with an `onLeave` handler,
an `onDragOver` invocation whose reported target id is absent dispatches only
the single immediate `drag-leave` — whichever way an awaited leave handler
would settle — and never dispatches `drag-leave-resolved`: the handler looks
up `dragEventCallbacks.get(id)` with `id` already known `undefined`, so the
previous target's registration is never consulted. -/
theorem onDragOver_absent_id_ignores_previous_target :
    hasLeaveCallback [(some "ns-A", dndNodeRegistration false true)] (some "ns-A") = true ∧
    onDragOverActions [(some "ns-A", dndNodeRegistration false true)]
        (⟨[entB], some [(some "ns-A", ⟨"over", some entB⟩)], []⟩ : GlobalDndState Nat)
        none true true =
      [.dragLeave (some { immediate := some true, id := none })] ∧
    onDragOverActions [(some "ns-A", dndNodeRegistration false true)]
        (⟨[entB], some [(some "ns-A", ⟨"over", some entB⟩)], []⟩ : GlobalDndState Nat)
        none false true =
      [.dragLeave (some { immediate := some true, id := none })] :=
  ⟨rfl, rfl, rfl⟩

/-- C4: at a state whose `over` holds the entry of the last-known target
`ns-A`, the `drag-leave` action as actually dispatched either throws (the
payload-less dispatches read `action.payload.id` on `undefined`) or, with the
`{immediate: true}` payload, leaves the `ns-A` entry untouched and writes a
fresh `{status: "leave"}` entry under the `undefined` key instead. -/
theorem dragLeave_payload_id_missing :
    dndStateReducer (⟨[entB], some [(some "ns-A", ⟨"over", some entB⟩)], []⟩ :
        GlobalDndState Nat) (.dragLeave none) =
      .error "TypeError: Cannot read properties of undefined (reading id)" ∧
    dndStateReducer (⟨[entB], some [(some "ns-A", ⟨"over", some entB⟩)], []⟩ :
        GlobalDndState Nat)
        (.dragLeave (some { immediate := some true, id := none })) =
      .ok ⟨[entB],
           some [(some "ns-A", ⟨"over", some entB⟩), (none, ⟨"leave", none⟩)], []⟩ :=
  ⟨rfl, rfl⟩

/-- C5: at a state whose `over` maps `ns-A` and `ns-B`, `drag-leave-resolved("ns-A")`
does not return a state with the key deleted: `state.over.delete(id)` returns a
boolean, `new Map(boolean)` throws, so the reducer always throws a `TypeError`
— after having already removed the key from the caller's map in place. -/
theorem dragLeaveResolved_always_throws :
    dndStateReducer
        (⟨[], some [(some "ns-A", ⟨"over", some entA⟩), (some "ns-B", ⟨"over", some entB⟩)], []⟩ :
          GlobalDndState Nat)
        (.dragLeaveResolved "ns-A") =
      .error "TypeError: boolean false is not iterable" ∧
    dndStateReducerInputAfter
        (⟨[], some [(some "ns-A", ⟨"over", some entA⟩), (some "ns-B", ⟨"over", some entB⟩)], []⟩ :
          GlobalDndState Nat)
        (.dragLeaveResolved "ns-A") =
      ⟨[], some [(some "ns-B", ⟨"over", some entB⟩)], []⟩ :=
  ⟨rfl, rfl⟩

/-- C6: the reducer is not pure. Applying `drag-over` to a state whose `over`
map is empty mutates the caller's state before returning (the idiom
`new Map(state.over.set(...))` mutates first, copies second): afterwards the
input object's `over` map contains the new entry. And `drag-leave-resolved`
throws a `TypeError` instead of returning a successor state. -/
theorem dndStateReducer_not_pure :
    dndStateReducerInputAfter (⟨[], some [], []⟩ : GlobalDndState Nat) (.dragOver entC) ≠
      ⟨[], some [], []⟩ ∧
    dndStateReducerInputAfter (⟨[], some [], []⟩ : GlobalDndState Nat) (.dragOver entC) =
      ⟨[], some [(some "ns-C", ⟨"over", some entC⟩)], []⟩ ∧
    dndStateReducer (⟨[], some [(some "ns-C", ⟨"over", some entC⟩)], []⟩ :
        GlobalDndState Nat) (.dragLeaveResolved "ns-C") =
      .error "TypeError: boolean false is not iterable" :=
  ⟨by decide, rfl, rfl⟩

/-- C7 (counterexample): from the empty-`over` state, hovering `ns-A` and then
`ns-B` leaves two entries in `over`, not exactly one: `drag-over` upserts
without removing the previously hovered target's entry. -/
theorem dragOver_twice_two_entries_cex :
    applyActions (⟨[], some [], []⟩ : GlobalDndState Nat)
        [.dragOver entA, .dragOver entB] =
      .ok ⟨[], some [(some "ns-A", ⟨"over", some entA⟩),
                     (some "ns-B", ⟨"over", some entB⟩)], []⟩ ∧
    ([(some "ns-A", (⟨"over", some entA⟩ : OverEntry Nat)),
      (some "ns-B", ⟨"over", some entB⟩)]).length ≠ 1 :=
  ⟨rfl, by decide⟩

/-- C7 (amended): starting from any state with empty `over`, a non-empty
sequence of `drag-over` actions succeeds and yields an `over` map holding one
entry per distinct hovered target id: the most recently hovered target's id
maps to `{status: "over", entity: that target}`, every hovered id keeps an
entry (nothing is removed), there are no other keys, and the keys are pairwise
distinct — so `over` has exactly one entry only when all hovered ids coincide. -/
theorem dragOver_sequence_accumulates (s : GlobalDndState T) (hover : s.over = some [])
    (es : List (Entity T)) (lastE : Entity T) (hlast : es.getLast? = some lastE) :
    applyActions s (es.map .dragOver) =
      .ok { dragging := s.dragging, over := some (overAfterDragOvers [] es),
            dropping := s.dropping } ∧
    JsMap.get (overAfterDragOvers ([] : JsMap (OverEntry T)) es) (some lastE.id) =
      some { status := "over", entity := some lastE } ∧
    (∀ k, k ∈ (overAfterDragOvers ([] : JsMap (OverEntry T)) es).map Prod.fst ↔
      ∃ e ∈ es, k = some e.id) ∧
    ((overAfterDragOvers ([] : JsMap (OverEntry T)) es).map Prod.fst).Nodup := by
  obtain ⟨d, o, dr⟩ := s
  obtain rfl : o = some [] := hover
  refine ⟨applyActions_dragOvers es d [] dr,
          get_overAfterDragOvers_getLast es lastE hlast [],
          ?_,
          nodup_keys_overAfterDragOvers es [] (by simp)⟩
  intro k
  rw [mem_keys_overAfterDragOvers]
  simp

/-- C7 (witness): the amended statement instantiated at the empty state and
the two-element hover sequence `[entA, entB]`. -/
theorem dragOver_sequence_accumulates_witness :
    applyActions (⟨[], some [], []⟩ : GlobalDndState Nat) ([entA, entB].map .dragOver) =
      .ok { dragging := [], over := some (overAfterDragOvers [] [entA, entB]),
            dropping := [] } ∧
    JsMap.get (overAfterDragOvers ([] : JsMap (OverEntry Nat)) [entA, entB])
        (some entB.id) = some { status := "over", entity := some entB } ∧
    ((overAfterDragOvers ([] : JsMap (OverEntry Nat)) [entA, entB]).map Prod.fst).Nodup :=
  ⟨(dragOver_sequence_accumulates ⟨[], some [], []⟩ rfl [entA, entB] entB (by decide)).1,
   (dragOver_sequence_accumulates ⟨[], some [], []⟩ rfl [entA, entB] entB (by decide)).2.1,
   (dragOver_sequence_accumulates ⟨[], some [], []⟩ rfl [entA, entB] entB (by decide)).2.2.2⟩

/-- C8: when the target `id` has a drop callback registered, the rejection
path of `onDragEnd` dispatches `drop-pending` followed by `drop-canceled(id)`,
and — for every starting state — the resulting global state is identical to
what the fulfillment path (`drop-pending` then `drop-resolved(id)`) produces:
the reducer handles the two settle actions by one shared case body. -/
theorem onDragEnd_rejection_indistinguishable (s : GlobalDndState T) (cbs : Callbacks)
    (id : String) (h : hasDropCallback cbs (some id) = true) :
    onDragEndActions T cbs (some id) false = [.dropPending, .dropCanceled id] ∧
    applyActions s (onDragEndActions T cbs (some id) false) =
      applyActions s (onDragEndActions T cbs (some id) true) := by
  constructor
  · simp [onDragEndActions, h]
  · simp only [onDragEndActions, h]
    rfl

/-- C8 (witness): the statement instantiated at a one-entry registry for
`ns-C` and a concrete pre-drop state. -/
theorem onDragEnd_rejection_indistinguishable_witness :
    onDragEndActions Nat [(some "ns-C", dndNodeRegistration true false)]
        (some "ns-C") false = [.dropPending, .dropCanceled "ns-C"] ∧
    applyActions (⟨[entA], some [(some "ns-C", ⟨"over", some entA⟩)], []⟩ :
          GlobalDndState Nat)
        (onDragEndActions Nat [(some "ns-C", dndNodeRegistration true false)]
          (some "ns-C") false) =
      applyActions (⟨[entA], some [(some "ns-C", ⟨"over", some entA⟩)], []⟩ :
          GlobalDndState Nat)
        (onDragEndActions Nat [(some "ns-C", dndNodeRegistration true false)]
          (some "ns-C") true) :=
  onDragEnd_rejection_indistinguishable _ _ "ns-C" (by decide)

/-- C9 (counterexample): with three entities dragged and the default maximum
of 5, all three are rendered — no entity is omitted — yet the count badge is
shown: the code emits the badge whenever `totalEntityLength > 1`, not when
more entities are dragged than rendered. -/
theorem overlay_badge_without_truncation_cex :
    (dndOverlayContent true [entA, entB, entC] 5).badge = true ∧
    (dndOverlayContent true [entA, entB, entC] 5).rendered.length =
      ([entA, entB, entC] : List (Entity Nat)).length :=
  ⟨rfl, rfl⟩

/-- C9 (amended): once a mouse position has been observed, the overlay renders
the first `maxEntityCount` entities of the list in order (never more than the
configured maximum), reports the total as the badge count, and shows the count
badge exactly when at least one entity is rendered and more than one entity is
being dragged — regardless of whether any entity was omitted. -/
theorem overlay_render_contract (entities : List (Entity T)) (maxEntityCount : Nat) :
    (dndOverlayContent true entities maxEntityCount).rendered =
      entities.take maxEntityCount ∧
    (dndOverlayContent true entities maxEntityCount).rendered.length ≤ maxEntityCount ∧
    ((dndOverlayContent true entities maxEntityCount).badge = true ↔
      entities.take maxEntityCount ≠ [] ∧ 1 < entities.length) ∧
    (dndOverlayContent true entities maxEntityCount).badgeCount = entities.length := by
  refine ⟨rfl, ?_, ?_, rfl⟩
  · simp [dndOverlayContent]
  · simp [dndOverlayContent]

/-- C10: the registration `DndNode` stores always has its `onDrop` defined
(the `handleDrop` wrapper is created whether or not an `onDrop` prop was
given), and consequently, over a registry whose entries all have `onDrop`
defined, `onDragEnd`'s immediate `drop-resolved` branch is taken exactly for
target ids with no registry entry at all. -/
theorem dndNode_onDrop_always_defined (T : Type) (he ho : Bool) (cbs : Callbacks)
    (id : String) (outcome : Bool)
    (hreg : ∀ p ∈ cbs, (Prod.snd p).onDrop = true) :
    (dndNodeRegistration he ho).onDrop = true ∧
    (hasDropCallback cbs (some id) = false ↔ JsMap.get cbs (some id) = none) ∧
    (onDragEndActions T cbs (some id) outcome = [.dropResolved id] ↔
      JsMap.get cbs (some id) = none) := by
  have key : hasDropCallback cbs (some id) = false ↔ JsMap.get cbs (some id) = none := by
    cases hget : JsMap.get cbs (some id) with
    | none => simp [hasDropCallback, hget]
    | some r =>
      have hr : r.onDrop = true := hreg (some id, r) (JsMap.get_mem hget)
      simp [hasDropCallback, hget, hr]
  refine ⟨rfl, key, ?_⟩
  cases hget : JsMap.get cbs (some id) with
  | none =>
    have hfalse : hasDropCallback cbs (some id) = false := key.mpr hget
    simp [onDragEndActions, hfalse]
  | some r =>
    have hr : r.onDrop = true := hreg (some id, r) (JsMap.get_mem hget)
    have htrue : hasDropCallback cbs (some id) = true := by
      simp [hasDropCallback, hget, hr]
    simp only [onDragEndActions, htrue]
    cases outcome <;> simp [hget]

/-- C10 (witness): the statement instantiated at a one-entry registry (a node
mounted as `ns-A`) and the unregistered target id `ns-B`. -/
theorem dndNode_onDrop_always_defined_witness :
    (dndNodeRegistration true true).onDrop = true ∧
    (hasDropCallback [(some "ns-A", dndNodeRegistration true true)] (some "ns-B") = false ↔
      JsMap.get [(some "ns-A", dndNodeRegistration true true)] (some "ns-B") = none) ∧
    (onDragEndActions Nat [(some "ns-A", dndNodeRegistration true true)]
        (some "ns-B") true = [.dropResolved "ns-B"] ↔
      JsMap.get [(some "ns-A", dndNodeRegistration true true)] (some "ns-B") = none) :=
  dndNode_onDrop_always_defined Nat true true _ "ns-B" true (by decide)

end DndKitPlus
